import Mathlib

/-!
Verification development for the geo-tiling and collector core of the
Location-Intelligence Review Analytics platform.

The Python source is embedded shallowly over the real numbers:
floating-point values become elements of ℝ, Python `None` becomes
`Option`, raised exceptions become `Except.error`, and the paginated
HTTP client becomes a page-indexed stream of already-decoded responses.
Parameters that only shape the outgoing HTTP request (API key, keyword,
per-tile search radius, URLs, sleep durations) are absorbed into that
stream model, since the core logic never inspects them.
-/

namespace LIRA

noncomputable section

/-! ### Geo math (src/geo.py) -/

/-- src/geo.py line 5: mean Earth radius in meters. -/
def EARTH_RADIUS_M : ℝ := 6371000.0

/-- src/geo.py lines 8-9. -/
def miles_to_meters (mi : ℝ) : ℝ := mi * 1609.344

/-- src/geo.py lines 12-13. -/
def meters_to_miles (m : ℝ) : ℝ := m / 1609.344

/-- Python math.radians: degrees to radians. -/
def radians (x : ℝ) : ℝ := x * (Real.pi / 180)

/-- src/geo.py lines 16-26: great-circle distance between two points in meters. -/
def haversine_m (lat1 lon1 lat2 lon2 : ℝ) : ℝ :=
  let phi1 := radians lat1
  let phi2 := radians lat2
  let dphi := radians (lat2 - lat1)
  let dlambda := radians (lon2 - lon1)
  let a := Real.sin (dphi / 2) ^ 2 +
    Real.cos phi1 * Real.cos phi2 * Real.sin (dlambda / 2) ^ 2
  2 * EARTH_RADIUS_M * Real.arcsin (Real.sqrt a)

/-- src/geo.py lines 29-31. -/
def haversine_miles (lat1 lon1 lat2 lon2 : ℝ) : ℝ :=
  meters_to_miles (haversine_m lat1 lon1 lat2 lon2)

/-- src/geo.py lines 34-36: convert meters to degrees latitude. -/
def meters_to_lat_deg (m : ℝ) : ℝ :=
  (m / EARTH_RADIUS_M) * (180.0 / Real.pi)

/-- src/geo.py lines 39-43: convert meters to degrees longitude at a given
latitude, with the cosine clamped to a small positive floor near the poles. -/
def meters_to_lon_deg (m : ℝ) (at_lat_deg : ℝ) : ℝ :=
  (m / (EARTH_RADIUS_M * max 0.000001 (Real.cos (radians at_lat_deg)))) * (180.0 / Real.pi)

/-- Iteration count of the Python loop idiom
"cur = lo; while cur <= hi: ...; cur += step".
With a positive step and lo ≤ hi the loop body runs for
cur = lo + i*step, i = 0 .. ⌊(hi-lo)/step⌋.  When lo > hi it runs 0 times.
When step ≤ 0 and lo ≤ hi the source loop never terminates; the model
completes that (unreachable for the positive radii used by callers) case
with 0 iterations. -/
def latticeSteps (lo hi step : ℝ) : ℕ :=
  if 0 < step ∧ lo ≤ hi then Nat.floor ((hi - lo) / step) + 1 else 0

/-- The values taken by the loop variable of the same Python loop.  Over ℝ the
float accumulation cur += step is exactly lo + i * step. -/
def latticePoints (lo hi step : ℝ) : List ℝ :=
  (List.range (latticeSteps lo hi step)).map (fun (i : ℕ) => lo + (i : ℝ) * step)

/-- Python round(x, 5): round to 5 decimal places.  Ties (a measure-zero set
the claims do not touch) are modelled with Mathlib round rather than
bankers rounding. -/
def round5 (x : ℝ) : ℝ :=
  ((round (x * 100000) : ℤ) : ℝ) / 100000

/-- Assignment into an insertion-ordered map, mirroring Python dict
assignment d[k] = v: the first insertion of a key fixes its position,
later assignments overwrite the stored value in place. -/
def dictInsert (m : List ((ℝ × ℝ) × (ℝ × ℝ))) (k v : ℝ × ℝ) :
    List ((ℝ × ℝ) × (ℝ × ℝ)) :=
  if m.any (fun e => decide (e.1 = k)) then
    m.map (fun e => if e.1 = k then (k, v) else e)
  else m ++ [(k, v)]

/-- src/geo.py lines 89-93: deduplicate a list of coordinate pairs through a
dict keyed by the coordinates rounded to 5 decimals, keeping dict value
order. -/
def dedupRound (l : List (ℝ × ℝ)) : List (ℝ × ℝ) :=
  (l.foldl (fun m p => dictInsert m (round5 p.1, round5 p.2) p) []).map (fun e => e.2)

/-- src/geo.py lines 46-93: cover a circle of radius_m with a grid of smaller
circles of radius tile_radius_m. -/
def generate_tile_centers (lat lon radius_m tile_radius_m : ℝ) : List (ℝ × ℝ) :=
  if radius_m ≤ tile_radius_m then [(lat, lon)]
  else
    let step_m := tile_radius_m * 1.5
    let dlat := meters_to_lat_deg step_m
    let dlon := meters_to_lon_deg step_m lat
    let lat_extent := meters_to_lat_deg radius_m
    let lon_extent := meters_to_lon_deg radius_m lat
    let lat_min := lat - lat_extent
    let lat_max := lat + lat_extent
    let lon_min := lon - lon_extent
    let lon_max := lon + lon_extent
    let r2 := radius_m * radius_m
    let centers :=
      (latticePoints lat_min lat_max dlat).flatMap (fun cur_lat =>
        (latticePoints lon_min lon_max dlon).filterMap (fun cur_lon =>
          let dy := (cur_lat - lat) * (Real.pi / 180.0) * EARTH_RADIUS_M
          let dx := (cur_lon - lon) * (Real.pi / 180.0) * EARTH_RADIUS_M *
            Real.cos (radians lat)
          if dx * dx + dy * dy ≤ r2 then some (cur_lat, cur_lon) else none))
    dedupRound (centers ++ [(lat, lon)])

/-! ### Upstream wire model (shared by both collectors) -/

/-- One raw upstream result record, restricted to the fields the collectors
read.  An absent geometry or geometry.location is modelled by both
coordinate fields being none. -/
structure RawPlace where
  place_id : Option String
  name : Option String
  vicinity : Option String
  formatted_address : Option String
  lat : Option ℝ
  lng : Option ℝ
  types : List String

/-- One decoded upstream JSON response page. -/
structure Response where
  status : Option String
  error_message : Option String
  results : List RawPlace
  next_page_token : Option String

/-- Python truthiness of an optional string: None and the empty string are
falsy. -/
def pyTruthy : Option String → Bool
  | none => false
  | some s => s != ""

/-- Python str() rendering of an optional string inside an f-string. -/
def renderPyOpt : Option String → String
  | none => "None"
  | some s => s

/-- The message of the RuntimeError raised at src/places_collector.py line 42. -/
def nearbyErrorMsg (status msg : Option String) : String :=
  "Nearby Search error: status=" ++ renderPyOpt status ++ ", msg=" ++ renderPyOpt msg

/-- The message of the RuntimeError raised at src/text_search_collector.py line 41. -/
def textErrorMsg (status msg : Option String) : String :=
  "Text Search error: status=" ++ renderPyOpt status ++ ", msg=" ++ renderPyOpt msg

/-- The paginated fetch loop shared verbatim by src/places_collector.py
lines 37-53 and src/text_search_collector.py lines 36-52.  resp is the
page-indexed stream of responses the HTTP client would deliver; fuel is
initialised to max_pages, which bounds the number of continuation pages, so
the fuel-exhausted branch is never reached (the loop breaks at
page + 1 >= max_pages first). -/
def searchPagesAux (errMsg : Option String → Option String → String)
    (resp : ℕ → Response) (maxPages : ℕ) :
    ℕ → ℕ → List RawPlace → Except String (List RawPlace)
  | fuel, page, acc =>
    let d := resp page
    if d.status = some "OK" ∨ d.status = some "ZERO_RESULTS" then
      let acc2 := acc ++ d.results
      if pyTruthy d.next_page_token = false ∨ maxPages ≤ page + 1 then
        Except.ok acc2
      else
        match fuel with
        | 0 => Except.ok acc2
        | fuel' + 1 => searchPagesAux errMsg resp maxPages fuel' (page + 1) acc2
    else
      Except.error (errMsg d.status d.error_message)

/-- src/places_collector.py lines 19-55: fetch and merge all result pages for
one tile, raising on any status other than OK / ZERO_RESULTS. -/
def nearby_search_tile (resp : ℕ → Response) (max_pages_per_tile : ℕ) :
    Except String (List RawPlace) :=
  searchPagesAux nearbyErrorMsg resp max_pages_per_tile max_pages_per_tile 0 []

/-- src/text_search_collector.py lines 21-54: fetch and merge all result pages
of a text search, raising on any status other than OK / ZERO_RESULTS. -/
def text_search_pages (resp : ℕ → Response) (max_pages_textsearch : ℕ) :
    Except String (List RawPlace) :=
  searchPagesAux textErrorMsg resp max_pages_textsearch max_pages_textsearch 0 []

/-! ### Collector pipelines -/

/-- One output row, shaped as in src/places_collector.py lines 101-110. -/
structure Place where
  place_id : String
  name : Option String
  vicinity : Option String
  lat : ℝ
  lon : ℝ
  types : String
  distance_m : Option ℝ
  distance_miles : Option ℝ

/-- State threaded through the collect loops: the seen identifier set (a list
used only through membership) and the accumulated output rows. -/
abbrev CollectState := List String × List Place

/-- One iteration of a collector's per-result loop, given the row builder
keep: skipped records leave the state unchanged, kept records register
their identifier and append their row. -/
def stepOf (keep : List String → RawPlace → Option Place) (st : CollectState)
    (p : RawPlace) : CollectState :=
  match keep st.1 p with
  | none => st
  | some pl => (pl.place_id :: st.1, st.2 ++ [pl])

/-- Greedy selection over a raw stream: keep a record exactly when keep
accepts it against the identifiers already taken.  This is the
specification-side reading of "first surviving occurrence wins". -/
def greedyOf (keep : List String → RawPlace → Option Place) (seen : List String) :
    List RawPlace → List Place
  | [] => []
  | p :: ps =>
    match keep seen p with
    | none => greedyOf keep seen ps
    | some pl => pl :: greedyOf keep (pl.place_id :: seen) ps

/-- The seen set produced alongside greedyOf. -/
def seenOf (keep : List String → RawPlace → Option Place) (seen : List String) :
    List RawPlace → List String
  | [] => seen
  | p :: ps =>
    match keep seen p with
    | none => seenOf keep seen ps
    | some pl => seenOf keep (pl.place_id :: seen) ps

namespace Places

/-- src/places_collector.py line 9. -/
def EARTH_RADIUS_M : ℝ := 6371000.0

/-- src/places_collector.py lines 11-17: module-local copy of the haversine
distance. -/
def haversine_m (lat1 lon1 lat2 lon2 : ℝ) : ℝ :=
  let phi1 := radians lat1
  let phi2 := radians lat2
  let dphi := radians (lat2 - lat1)
  let dlambda := radians (lon2 - lon1)
  let a := Real.sin (dphi / 2) ^ 2 +
    Real.cos phi1 * Real.cos phi2 * Real.sin (dlambda / 2) ^ 2
  2 * EARTH_RADIUS_M * Real.arcsin (Real.sqrt a)

/-- The body of the per-result loop of collect_places
(src/places_collector.py lines 80-110): the row appended for raw result p
given the current seen set, or none when the record is skipped.  Skips, in
source order: falsy or already-seen place_id; missing coordinates; distance
beyond the filter radius (only when both filter arguments are supplied). -/
def keepPlace (filter_center : Option (ℝ × ℝ)) (filter_radius_m : Option ℝ)
    (seen : List String) (p : RawPlace) : Option Place :=
  match p.place_id with
  | none => none
  | some pid =>
    if pid = "" ∨ pid ∈ seen then none
    else
      match p.lat, p.lng with
      | some p_lat, some p_lon =>
        match filter_center, filter_radius_m with
        | some c, some r =>
          let dist_m := haversine_m c.1 c.2 p_lat p_lon
          if r < dist_m then none
          else some
            { place_id := pid
              name := p.name
              vicinity := p.vicinity
              lat := p_lat
              lon := p_lon
              types := String.intercalate "," p.types
              distance_m := some dist_m
              distance_miles := some (dist_m / 1609.344) }
        | _, _ =>
          some
            { place_id := pid
              name := p.name
              vicinity := p.vicinity
              lat := p_lat
              lon := p_lon
              types := String.intercalate "," p.types
              distance_m := none
              distance_miles := none }
      | _, _ => none

/-- Boolean order realizing the sort key of src/places_collector.py line 116:
(distance_m is None, distance_m), rows without a distance last.  Comparing
two absent distances is unreachable in the source (the sort only runs when
every row carries a distance); the model makes that case reflexively true. -/
def sortLe (a b : Place) : Bool :=
  match a.distance_m, b.distance_m with
  | some x, some y => decide (x ≤ y)
  | some _, none => true
  | none, some _ => false
  | none, none => true

end Places

/-- The per-tile fetch-and-merge loop of collect_places
(src/places_collector.py lines 77-112): fetch each tile's merged pages,
fold the per-result loop over them, and propagate the first raised error. -/
def collectTilesAux (fetch : ℝ × ℝ → Except String (List RawPlace))
    (step : CollectState → RawPlace → CollectState) :
    List (ℝ × ℝ) → CollectState → Except String CollectState
  | [], st => Except.ok st
  | t :: ts, st =>
    match fetch t with
    | Except.error e => Except.error e
    | Except.ok results => collectTilesAux fetch step ts (results.foldl step st)

/-- src/places_collector.py lines 57-118.  client t is the page-indexed
response stream the HTTP client delivers for tile t (the keyword, search
radius and credentials that parameterize it are absorbed into the model). -/
def collect_places (client : ℝ × ℝ → ℕ → Response) (max_pages_per_tile : ℕ)
    (tile_centers : List (ℝ × ℝ))
    (filter_center : Option (ℝ × ℝ)) (filter_radius_m : Option ℝ) :
    Except String (List Place) :=
  match collectTilesAux (fun t => nearby_search_tile (client t) max_pages_per_tile)
      (stepOf (Places.keepPlace filter_center filter_radius_m)) tile_centers ([], []) with
  | Except.error e => Except.error e
  | Except.ok st =>
    match filter_center, filter_radius_m with
    | some _, some _ => Except.ok (st.2.mergeSort Places.sortLe)
    | _, _ => Except.ok st.2

namespace TS

/-- src/text_search_collector.py line 9. -/
def EARTH_RADIUS_M : ℝ := 6371000.0

/-- src/text_search_collector.py lines 12-18: module-local copy of the
haversine distance. -/
def haversine_m (lat1 lon1 lat2 lon2 : ℝ) : ℝ :=
  let phi1 := radians lat1
  let phi2 := radians lat2
  let dphi := radians (lat2 - lat1)
  let dlambda := radians (lon2 - lon1)
  let a := Real.sin (dphi / 2) ^ 2 +
    Real.cos phi1 * Real.cos phi2 * Real.sin (dlambda / 2) ^ 2
  2 * EARTH_RADIUS_M * Real.arcsin (Real.sqrt a)

/-- Python "a or b" on optional strings: a unless a is falsy (None or empty). -/
def pyOrStr (a b : Option String) : Option String :=
  match a with
  | none => b
  | some s => if s = "" then b else some s

/-- The body of the per-result loop of collect_places_textsearch
(src/text_search_collector.py lines 74-100); filtering is unconditional in
this collector. -/
def keepPlace (filter_center : ℝ × ℝ) (filter_radius_m : ℝ)
    (seen : List String) (p : RawPlace) : Option Place :=
  match p.place_id with
  | none => none
  | some pid =>
    if pid = "" ∨ pid ∈ seen then none
    else
      match p.lat, p.lng with
      | some p_lat, some p_lon =>
        let dist_m := haversine_m filter_center.1 filter_center.2 p_lat p_lon
        if filter_radius_m < dist_m then none
        else some
          { place_id := pid
            name := p.name
            vicinity := pyOrStr p.formatted_address p.vicinity
            lat := p_lat
            lon := p_lon
            types := String.intercalate "," p.types
            distance_m := some dist_m
            distance_miles := some (dist_m / 1609.344) }
      | _, _ => none

/-- Boolean order realizing the sort key of src/text_search_collector.py
line 102: the raw distance value.  Every row of this collector carries a
distance, so the comparisons involving an absent one are unreachable in the
source; the model orders them first, which keeps the order total and
transitive. -/
def sortLe (a b : Place) : Bool :=
  match a.distance_m, b.distance_m with
  | some x, some y => decide (x ≤ y)
  | none, _ => true
  | some _, none => false

end TS

/-- src/text_search_collector.py lines 57-103. -/
def collect_places_textsearch (resp : ℕ → Response) (max_pages_textsearch : ℕ)
    (filter_center : ℝ × ℝ) (filter_radius_m : ℝ) :
    Except String (List Place) :=
  match text_search_pages resp max_pages_textsearch with
  | Except.error e => Except.error e
  | Except.ok raw =>
    Except.ok
      (((raw.foldl (stepOf (TS.keepPlace filter_center filter_radius_m)) ([], [])).2).mergeSort
        TS.sortLe)

/-! ### Predicates and concrete fixtures -/

/-- A response status the fetch loops accept (src lines 41 / 40). -/
def goodStatus (d : Response) : Prop :=
  d.status = some "OK" ∨ d.status = some "ZERO_RESULTS"

/-- A well-formed raw record located exactly at the origin. -/
def rawA : RawPlace :=
  { place_id := some "a", name := some "Cafe A", vicinity := some "1 Main St",
    formatted_address := none, lat := some 0, lng := some 0, types := ["cafe"] }

/-- A single successful result page with no continuation token. -/
def okPage (rs : List RawPlace) : Response :=
  { status := some "OK", error_message := none, results := rs, next_page_token := none }

def clientA : ℝ × ℝ → ℕ → Response := fun _ _ => okPage [rawA]

def respA : ℕ → Response := fun _ => okPage [rawA]

/-- The row both collectors build from rawA under a filter centered at the
origin. -/
def pA : Place :=
  { place_id := "a", name := some "Cafe A", vicinity := some "1 Main St",
    lat := 0, lon := 0, types := "cafe", distance_m := some 0, distance_miles := some 0 }

/-- The row collect_places builds from rawA when no filter is active. -/
def pA0 : Place :=
  { place_id := "a", name := some "Cafe A", vicinity := some "1 Main St",
    lat := 0, lon := 0, types := "cafe", distance_m := none, distance_miles := none }

/-- A malformed raw record: its geometry.location is absent. -/
def rawNoGeo : RawPlace :=
  { place_id := some "x", name := some "Ghost", vicinity := none,
    formatted_address := none, lat := none, lng := none, types := [] }

def clientM1 : ℝ × ℝ → ℕ → Response := fun _ _ => okPage [rawNoGeo, rawA]

def clientM2 : ℝ × ℝ → ℕ → Response := fun _ _ => okPage [rawA]

def respM1 : ℕ → Response := fun _ => okPage [rawNoGeo, rawA]

def respM2 : ℕ → Response := fun _ => okPage [rawA]

/-- A stream whose every page reports a failing status. -/
def respBad : ℕ → Response :=
  fun _ =>
    { status := some "OVER_QUERY_LIMIT", error_message := some "quota exceeded",
      results := [], next_page_token := none }

def clientBad : ℝ × ℝ → ℕ → Response := fun _ => respBad

/-- A stream whose first page succeeds with a result and a continuation token
and whose second page fails: exercises the discard of merged partial
results. -/
def respBad2 : ℕ → Response :=
  fun n =>
    if n = 0 then
      { status := some "OK", error_message := none,
        results := [rawA], next_page_token := some "tok" }
    else
      { status := some "OVER_QUERY_LIMIT", error_message := some "quota exceeded",
        results := [], next_page_token := none }

/-- First occurrence of identifier a: coordinates absent. -/
def rawDup1 : RawPlace :=
  { place_id := some "a", name := some "A", vicinity := none,
    formatted_address := none, lat := none, lng := none, types := [] }

/-- Second occurrence of identifier a: well-formed, different name. -/
def rawDup2 : RawPlace :=
  { place_id := some "a", name := some "B", vicinity := none,
    formatted_address := some "2 Oak Ave", lat := some 0, lng := some 0, types := [] }

def respDup : ℕ → Response := fun _ => okPage [rawDup1, rawDup2]

/-- The row the text-search collector keeps for identifier a in respDup: it
is built from the second occurrence. -/
def pB : Place :=
  { place_id := "a", name := some "B", vicinity := some "2 Oak Ave",
    lat := 0, lon := 0, types := "", distance_m := some 0, distance_miles := some 0 }

/-! ### Basic facts about the geo math -/

theorem haversine_m_self (lat lon : ℝ) : haversine_m lat lon lat lon = 0 := by
  simp [haversine_m, radians, Real.sqrt_zero, Real.arcsin_zero]

theorem haversine_m_comm (lat1 lon1 lat2 lon2 : ℝ) :
    haversine_m lat1 lon1 lat2 lon2 = haversine_m lat2 lon2 lat1 lon1 := by
  simp only [haversine_m, radians]
  rw [show (lat1 - lat2) * (Real.pi / 180) / 2 = -((lat2 - lat1) * (Real.pi / 180) / 2) by ring]
  rw [show (lon1 - lon2) * (Real.pi / 180) / 2 = -((lon2 - lon1) * (Real.pi / 180) / 2) by ring]
  rw [Real.sin_neg, Real.sin_neg]
  congr 1
  congr 1
  congr 1
  ring

theorem Places_haversine_m_eq : Places.haversine_m = haversine_m := rfl

theorem TS_haversine_m_eq : TS.haversine_m = haversine_m := rfl

/-- C8: the haversine distance is zero on coincident points and symmetric in
its two coordinate arguments. -/
theorem C8_distance_zero_and_symmetric :
    (∀ lat lon : ℝ, haversine_m lat lon lat lon = 0) ∧
    (∀ lat1 lon1 lat2 lon2 : ℝ,
      haversine_m lat1 lon1 lat2 lon2 = haversine_m lat2 lon2 lat1 lon1) :=
  ⟨haversine_m_self, haversine_m_comm⟩

/-- C4: whenever the requested radius is at most the tile radius (degenerate
non-positive requested radii included), generate_tile_centers returns exactly
the one-element list holding the input center. -/
theorem C4_no_tiling_single_center (lat lon radius_m tile_radius_m : ℝ)
    (h : radius_m ≤ tile_radius_m) :
    generate_tile_centers lat lon radius_m tile_radius_m = [(lat, lon)] := by
  unfold generate_tile_centers
  rw [if_pos h]

/-- Witness for C4 at the spec scenario: 10 miles requested against a 50 km
tile radius around Plano, TX. -/
theorem C4_no_tiling_single_center_witness :
    (16093.44 : ℝ) ≤ 50000 ∧
    generate_tile_centers 33.0198 (-96.6989) 16093.44 50000 = [(33.0198, -96.6989)] :=
  ⟨by norm_num,
    C4_no_tiling_single_center 33.0198 (-96.6989) 16093.44 50000 (by norm_num)⟩

/-! ### Dedup dictionary lemmas -/

theorem dictInsert_snd_mem (m : List ((ℝ × ℝ) × (ℝ × ℝ))) (k v : ℝ × ℝ) :
    v ∈ (dictInsert m k v).map (fun e => e.2) := by
  unfold dictInsert
  split
  · rename_i h
    rw [List.any_eq_true] at h
    obtain ⟨e, he, hek⟩ := h
    rw [decide_eq_true_eq] at hek
    exact List.mem_map.mpr ⟨(k, v), List.mem_map.mpr ⟨e, he, by simp [hek]⟩, rfl⟩
  · simp

theorem dictInsert_snd_subset (m : List ((ℝ × ℝ) × (ℝ × ℝ))) (k v : ℝ × ℝ) :
    ∀ q ∈ (dictInsert m k v).map (fun e => e.2),
      q = v ∨ q ∈ m.map (fun e => e.2) := by
  intro q hq
  unfold dictInsert at hq
  split at hq
  · obtain ⟨e, he, hev⟩ := List.mem_map.mp hq
    obtain ⟨e', he', he'e⟩ := List.mem_map.mp he
    by_cases hk : e'.1 = k
    · rw [if_pos hk] at he'e
      left
      rw [← he'e] at hev
      exact hev.symm
    · rw [if_neg hk] at he'e
      right
      exact List.mem_map.mpr ⟨e', he', by rw [he'e, hev]⟩
  · rw [List.map_append] at hq
    rcases List.mem_append.mp hq with h | h
    · exact Or.inr h
    · simp at h
      exact Or.inl h

theorem dedup_foldl_subset (l : List (ℝ × ℝ)) :
    ∀ (m : List ((ℝ × ℝ) × (ℝ × ℝ))) (q : ℝ × ℝ),
      q ∈ ((l.foldl (fun m p => dictInsert m (round5 p.1, round5 p.2) p) m).map
        (fun e => e.2)) →
      q ∈ m.map (fun e => e.2) ∨ q ∈ l := by
  induction l with
  | nil => exact fun m q h => Or.inl h
  | cons p ps ih =>
    intro m q h
    rcases ih _ q h with h' | h'
    · rcases dictInsert_snd_subset _ _ _ q h' with h'' | h''
      · exact Or.inr (h'' ▸ List.mem_cons_self p ps)
      · exact Or.inl h''
    · exact Or.inr (List.mem_cons_of_mem _ h')

theorem dedupRound_subset (l : List (ℝ × ℝ)) : ∀ q ∈ dedupRound l, q ∈ l := by
  intro q hq
  rcases dedup_foldl_subset l [] q hq with h | h
  · simp at h
  · exact h

theorem dedupRound_last_mem (l : List (ℝ × ℝ)) (p : ℝ × ℝ) :
    p ∈ dedupRound (l ++ [p]) := by
  unfold dedupRound
  rw [List.foldl_append]
  exact dictInsert_snd_mem _ _ _

/-- C5: the exact input center is present in every generated tile set, and in
particular the output is never empty. -/
theorem C5_center_always_included (lat lon radius_m tile_radius_m : ℝ) :
    (lat, lon) ∈ generate_tile_centers lat lon radius_m tile_radius_m ∧
    generate_tile_centers lat lon radius_m tile_radius_m ≠ [] := by
  have hmem : (lat, lon) ∈ generate_tile_centers lat lon radius_m tile_radius_m := by
    unfold generate_tile_centers
    split
    · simp
    · exact dedupRound_last_mem _ _
  exact ⟨hmem, List.ne_nil_of_mem hmem⟩

/-! ### Lattice walk bounds and the tiling branch -/

theorem latticePoints_bounds {lo hi step x : ℝ} (hstep : 0 < step)
    (hx : x ∈ latticePoints lo hi step) : lo ≤ x ∧ x ≤ hi := by
  unfold latticePoints latticeSteps at hx
  obtain ⟨i, him, hix⟩ := List.mem_map.mp hx
  rw [List.mem_range] at him
  split at him
  · rename_i hcond
    have hnn : (0 : ℝ) ≤ (hi - lo) / step := div_nonneg (by linarith [hcond.2]) hstep.le
    have hfl : (i : ℝ) ≤ (hi - lo) / step := by
      calc (i : ℝ) ≤ (⌊(hi - lo) / step⌋₊ : ℝ) :=
            Nat.cast_le.mpr (Nat.lt_succ_iff.mp him)
        _ ≤ (hi - lo) / step := Nat.floor_le hnn
    have hmul : (i : ℝ) * step ≤ hi - lo := (le_div_iff₀ hstep).mp hfl
    have hpos : (0 : ℝ) ≤ (i : ℝ) * step := mul_nonneg (Nat.cast_nonneg i) hstep.le
    constructor
    · linarith [hix]
    · linarith [hix]
  · exact absurd him (Nat.not_lt_zero i)

theorem meters_to_lat_deg_pos {m : ℝ} (hm : 0 < m) : 0 < meters_to_lat_deg m := by
  unfold meters_to_lat_deg EARTH_RADIUS_M
  exact mul_pos (div_pos hm (by norm_num)) (div_pos (by norm_num) Real.pi_pos)

theorem meters_to_lon_deg_pos {m : ℝ} (hm : 0 < m) (lat : ℝ) :
    0 < meters_to_lon_deg m lat := by
  unfold meters_to_lon_deg EARTH_RADIUS_M
  have h1 : (0 : ℝ) < max 0.000001 (Real.cos (radians lat)) :=
    lt_of_lt_of_le (by norm_num) (le_max_left _ _)
  exact mul_pos (div_pos hm (mul_pos (by norm_num) h1)) (div_pos (by norm_num) Real.pi_pos)

theorem generate_tile_centers_eq_tiling (lat lon radius_m tile_radius_m : ℝ)
    (h : ¬ radius_m ≤ tile_radius_m) :
    generate_tile_centers lat lon radius_m tile_radius_m =
      dedupRound
        ((latticePoints (lat - meters_to_lat_deg radius_m)
            (lat + meters_to_lat_deg radius_m)
            (meters_to_lat_deg (tile_radius_m * 1.5))).flatMap (fun cur_lat =>
          (latticePoints (lon - meters_to_lon_deg radius_m lat)
            (lon + meters_to_lon_deg radius_m lat)
            (meters_to_lon_deg (tile_radius_m * 1.5) lat)).filterMap (fun cur_lon =>
            if ((cur_lon - lon) * (Real.pi / 180.0) * EARTH_RADIUS_M *
                  Real.cos (radians lat)) *
                ((cur_lon - lon) * (Real.pi / 180.0) * EARTH_RADIUS_M *
                  Real.cos (radians lat)) +
              ((cur_lat - lat) * (Real.pi / 180.0) * EARTH_RADIUS_M) *
                ((cur_lat - lat) * (Real.pi / 180.0) * EARTH_RADIUS_M) ≤
              radius_m * radius_m
            then some (cur_lat, cur_lon) else none)) ++ [(lat, lon)]) := by
  unfold generate_tile_centers
  rw [if_neg h]

/-- Evaluation of the tile generator at the degenerate input of the C9
counterexample: a negative requested radius still takes the tiling branch,
the lattice walk is empty, and only the force-included center survives. -/
theorem gen_neg_radius_eval :
    generate_tile_centers 0 0 (-1) (-2) = [((0 : ℝ), (0 : ℝ))] := by
  rw [generate_tile_centers_eq_tiling 0 0 (-1) (-2) (by norm_num)]
  have hstep : meters_to_lat_deg ((-2) * 1.5) < 0 := by
    unfold meters_to_lat_deg EARTH_RADIUS_M
    exact mul_neg_of_neg_of_pos (by norm_num) (div_pos (by norm_num) Real.pi_pos)
  have h0 : latticeSteps (0 - meters_to_lat_deg (-1)) (0 + meters_to_lat_deg (-1))
      (meters_to_lat_deg ((-2) * 1.5)) = 0 := by
    unfold latticeSteps
    rw [if_neg]
    rintro ⟨hpos, -⟩
    linarith
  unfold latticePoints
  rw [h0]
  simp [dedupRound, dictInsert]

/-- C9 as frozen is false: with requested radius -1 and tile radius -2 the
generator tiles (since -1 > -2) and returns exactly the input center, but the
center does not lie in the claimed bounding box, whose half-widths are
negative. -/
theorem C9_counterexample :
    ¬ (∀ p ∈ generate_tile_centers 0 0 (-1) (-2),
      (p = ((0 : ℝ), (0 : ℝ)) ∨
        Real.sqrt (((p.2 - 0) * (Real.pi / 180.0) * EARTH_RADIUS_M *
            Real.cos (radians 0)) ^ 2 +
          ((p.1 - 0) * (Real.pi / 180.0) * EARTH_RADIUS_M) ^ 2) ≤ -1) ∧
      (0 - meters_to_lat_deg (-1) ≤ p.1 ∧
        p.1 ≤ 0 + meters_to_lat_deg (-1) ∧
        0 - meters_to_lon_deg (-1) 0 ≤ p.2 ∧
        p.2 ≤ 0 + meters_to_lon_deg (-1) 0)) := by
  intro h
  have hm : ((0 : ℝ), (0 : ℝ)) ∈ generate_tile_centers 0 0 (-1) (-2) := by
    rw [gen_neg_radius_eval]
    exact List.mem_singleton_self _
  obtain ⟨-, hbb⟩ := h _ hm
  have hneg : meters_to_lat_deg (-1) < 0 := by
    unfold meters_to_lat_deg EARTH_RADIUS_M
    exact mul_neg_of_neg_of_pos (by norm_num) (div_pos (by norm_num) Real.pi_pos)
  have := hbb.1
  simp only at this
  linarith

/-- C9 amended: when the generator tiles with a positive tile radius (so the
source loops terminate), every returned center other than the force-included
exact center has planar equirectangular displacement at most the requested
radius, and every returned center lies in the bounding box of the center
plus or minus the converted radius in both axes. -/
theorem C9_amended_tiling_bounds (lat lon radius_m tile_radius_m : ℝ)
    (h1 : tile_radius_m < radius_m) (h2 : 0 < tile_radius_m) :
    ∀ p ∈ generate_tile_centers lat lon radius_m tile_radius_m,
      (p = (lat, lon) ∨
        Real.sqrt (((p.2 - lon) * (Real.pi / 180.0) * EARTH_RADIUS_M *
            Real.cos (radians lat)) ^ 2 +
          ((p.1 - lat) * (Real.pi / 180.0) * EARTH_RADIUS_M) ^ 2) ≤ radius_m) ∧
      (lat - meters_to_lat_deg radius_m ≤ p.1 ∧
        p.1 ≤ lat + meters_to_lat_deg radius_m ∧
        lon - meters_to_lon_deg radius_m lat ≤ p.2 ∧
        p.2 ≤ lon + meters_to_lon_deg radius_m lat) := by
  intro p hp
  have hrad : 0 < radius_m := lt_trans h2 h1
  rw [generate_tile_centers_eq_tiling lat lon radius_m tile_radius_m (not_le.mpr h1)] at hp
  have hp' := dedupRound_subset _ p hp
  rcases List.mem_append.mp hp' with hc | hc
  · obtain ⟨cur_lat, hlat, hmem2⟩ := List.mem_flatMap.mp hc
    obtain ⟨cur_lon, hlon, heq⟩ := List.mem_filterMap.mp hmem2
    split at heq
    · rename_i hcond
      obtain rfl : (cur_lat, cur_lon) = p := Option.some_injective _ heq
      have hdlat : 0 < meters_to_lat_deg (tile_radius_m * 1.5) :=
        meters_to_lat_deg_pos (by linarith)
      have hdlon : 0 < meters_to_lon_deg (tile_radius_m * 1.5) lat :=
        meters_to_lon_deg_pos (by linarith) lat
      have hbl := latticePoints_bounds hdlat hlat
      have hbo := latticePoints_bounds hdlon hlon
      refine ⟨Or.inr ?_, hbl.1, hbl.2, hbo.1, hbo.2⟩
      have hle : ((cur_lon - lon) * (Real.pi / 180.0) * EARTH_RADIUS_M *
            Real.cos (radians lat)) ^ 2 +
          ((cur_lat - lat) * (Real.pi / 180.0) * EARTH_RADIUS_M) ^ 2 ≤ radius_m ^ 2 := by
        simp only [pow_two]
        linarith [hcond]
      show Real.sqrt (((cur_lon - lon) * (Real.pi / 180.0) * EARTH_RADIUS_M *
            Real.cos (radians lat)) ^ 2 +
          ((cur_lat - lat) * (Real.pi / 180.0) * EARTH_RADIUS_M) ^ 2) ≤ radius_m
      calc Real.sqrt (((cur_lon - lon) * (Real.pi / 180.0) * EARTH_RADIUS_M *
              Real.cos (radians lat)) ^ 2 +
            ((cur_lat - lat) * (Real.pi / 180.0) * EARTH_RADIUS_M) ^ 2)
          ≤ Real.sqrt (radius_m ^ 2) := Real.sqrt_le_sqrt hle
        _ = radius_m := Real.sqrt_sq hrad.le
    · exact absurd heq (by simp)
  · rw [List.mem_singleton] at hc
    subst hc
    have hlatpos := meters_to_lat_deg_pos hrad
    have hlonpos := meters_to_lon_deg_pos hrad lat
    refine ⟨Or.inl rfl, ?_, ?_, ?_, ?_⟩ <;> simp only <;> linarith

/-- Witness for the amended C9 at a genuinely tiling input. -/
theorem C9_amended_tiling_bounds_witness :
    (1 : ℝ) < 1.2 ∧ (0 : ℝ) < 1 ∧
    (∀ p ∈ generate_tile_centers 0 0 1.2 1,
      (p = ((0 : ℝ), (0 : ℝ)) ∨
        Real.sqrt (((p.2 - 0) * (Real.pi / 180.0) * EARTH_RADIUS_M *
            Real.cos (radians 0)) ^ 2 +
          ((p.1 - 0) * (Real.pi / 180.0) * EARTH_RADIUS_M) ^ 2) ≤ 1.2) ∧
      (0 - meters_to_lat_deg 1.2 ≤ p.1 ∧
        p.1 ≤ 0 + meters_to_lat_deg 1.2 ∧
        0 - meters_to_lon_deg 1.2 0 ≤ p.2 ∧
        p.2 ≤ 0 + meters_to_lon_deg 1.2 0)) :=
  ⟨by norm_num, by norm_num,
    C9_amended_tiling_bounds 0 0 1.2 1 (by norm_num) (by norm_num)⟩

/-! ### Fold characterization of the per-result loops -/

theorem foldl_stepOf_eq (keep : List String → RawPlace → Option Place) :
    ∀ (l : List RawPlace) (seen : List String) (places : List Place),
      l.foldl (stepOf keep) (seen, places) =
        (seenOf keep seen l, places ++ greedyOf keep seen l) := by
  intro l
  induction l with
  | nil => intro seen places; simp [seenOf, greedyOf]
  | cons p ps ih =>
    intro seen places
    rw [List.foldl_cons]
    cases hk : keep seen p with
    | none =>
      rw [show stepOf keep (seen, places) p = (seen, places) by simp [stepOf, hk]]
      rw [ih]
      simp [seenOf, greedyOf, hk]
    | some pl =>
      rw [show stepOf keep (seen, places) p = (pl.place_id :: seen, places ++ [pl]) by
        simp [stepOf, hk]]
      rw [ih]
      simp [seenOf, greedyOf, hk]

theorem collectTilesAux_ok_ex (fetch : ℝ × ℝ → Except String (List RawPlace))
    (step : CollectState → RawPlace → CollectState) :
    ∀ (ts : List (ℝ × ℝ)) (st st' : CollectState),
      collectTilesAux fetch step ts st = Except.ok st' →
      ∃ raw : List RawPlace, st' = raw.foldl step st := by
  intro ts
  induction ts with
  | nil =>
    intro st st' h
    simp [collectTilesAux] at h
    exact ⟨[], by simp [h]⟩
  | cons t ts ih =>
    intro st st' h
    simp only [collectTilesAux] at h
    cases hf : fetch t with
    | error e => rw [hf] at h; cases h
    | ok results =>
      rw [hf] at h
      obtain ⟨raw, hr⟩ := ih _ _ h
      exact ⟨results ++ raw, by rw [List.foldl_append]; exact hr⟩

theorem collectTilesAux_ok_of_fetch (fetch : ℝ × ℝ → Except String (List RawPlace))
    (step : CollectState → RawPlace → CollectState) (L : ℝ × ℝ → List RawPlace) :
    ∀ (ts : List (ℝ × ℝ)) (st : CollectState),
      (∀ t ∈ ts, fetch t = Except.ok (L t)) →
      collectTilesAux fetch step ts st = Except.ok ((ts.flatMap L).foldl step st) := by
  intro ts
  induction ts with
  | nil => intro st _; simp [collectTilesAux]
  | cons t ts ih =>
    intro st h
    simp only [collectTilesAux, h t (List.mem_cons_self t ts)]
    rw [ih _ (fun t' ht' => h t' (List.mem_cons_of_mem _ ht'))]
    rw [List.flatMap_cons, List.foldl_append]

theorem collectTilesAux_error_prop (fetch : ℝ × ℝ → Except String (List RawPlace))
    (step : CollectState → RawPlace → CollectState) (t : ℝ × ℝ)
    (t2 : List (ℝ × ℝ)) (e : String) :
    ∀ (t1 : List (ℝ × ℝ)) (st : CollectState),
      (∀ t' ∈ t1, ∃ l, fetch t' = Except.ok l) →
      fetch t = Except.error e →
      collectTilesAux fetch step (t1 ++ t :: t2) st = Except.error e := by
  intro t1
  induction t1 with
  | nil =>
    intro st _ he
    simp only [List.nil_append, collectTilesAux]
    rw [he]
  | cons t' t1 ih =>
    intro st h1 he
    obtain ⟨l, hl⟩ := h1 t' (List.mem_cons_self t' t1)
    simp only [List.cons_append, collectTilesAux]
    rw [hl]
    exact ih _ (fun x hx => h1 x (List.mem_cons_of_mem _ hx)) he

/-! ### Inversion and congruence for the per-record row builders -/

theorem Places_keepPlace_inv {fc : Option (ℝ × ℝ)} {fr : Option ℝ}
    {seen : List String} {p : RawPlace} {pl : Place}
    (h : Places.keepPlace fc fr seen p = some pl) :
    p.place_id = some pl.place_id ∧ pl.place_id ∉ seen ∧ pl.place_id ≠ "" ∧
    p.lat = some pl.lat ∧ p.lng = some pl.lon ∧
    ((∃ c r, fc = some c ∧ fr = some r ∧
        pl.distance_m = some (Places.haversine_m c.1 c.2 pl.lat pl.lon) ∧
        Places.haversine_m c.1 c.2 pl.lat pl.lon ≤ r ∧
        pl.distance_miles =
          some (Places.haversine_m c.1 c.2 pl.lat pl.lon / 1609.344)) ∨
      ((fc = none ∨ fr = none) ∧ pl.distance_m = none ∧ pl.distance_miles = none)) := by
  unfold Places.keepPlace at h
  cases hp : p.place_id with
  | none => rw [hp] at h; cases h
  | some pid =>
    rw [hp] at h
    dsimp only at h
    by_cases hcond : pid = "" ∨ pid ∈ seen
    · rw [if_pos hcond] at h; cases h
    · rw [if_neg hcond] at h
      push_neg at hcond
      cases hla : p.lat with
      | none => rw [hla] at h; dsimp only at h; cases h
      | some p_lat =>
        cases hlg : p.lng with
        | none => rw [hla, hlg] at h; dsimp only at h; cases h
        | some p_lon =>
          rw [hla, hlg] at h
          dsimp only at h
          cases fc with
          | none =>
            cases h' : fr with
            | none =>
              rw [h'] at h
              dsimp only at h
              obtain rfl := Option.some_injective _ h
              exact ⟨rfl, hcond.2, hcond.1, rfl, rfl,
                Or.inr ⟨Or.inl rfl, rfl, rfl⟩⟩
            | some r =>
              rw [h'] at h
              dsimp only at h
              obtain rfl := Option.some_injective _ h
              exact ⟨rfl, hcond.2, hcond.1, rfl, rfl,
                Or.inr ⟨Or.inl rfl, rfl, rfl⟩⟩
          | some c =>
            cases h' : fr with
            | none =>
              rw [h'] at h
              dsimp only at h
              obtain rfl := Option.some_injective _ h
              exact ⟨rfl, hcond.2, hcond.1, rfl, rfl,
                Or.inr ⟨Or.inr rfl, rfl, rfl⟩⟩
            | some r =>
              rw [h'] at h
              dsimp only at h
              by_cases hd : r < Places.haversine_m c.1 c.2 p_lat p_lon
              · rw [if_pos hd] at h; cases h
              · rw [if_neg hd] at h
                obtain rfl := Option.some_injective _ h
                exact ⟨rfl, hcond.2, hcond.1, rfl, rfl,
                  Or.inl ⟨c, r, rfl, rfl, rfl, not_lt.mp hd, rfl⟩⟩

theorem TS_keepPlace_inv {c : ℝ × ℝ} {r : ℝ}
    {seen : List String} {p : RawPlace} {pl : Place}
    (h : TS.keepPlace c r seen p = some pl) :
    p.place_id = some pl.place_id ∧ pl.place_id ∉ seen ∧ pl.place_id ≠ "" ∧
    p.lat = some pl.lat ∧ p.lng = some pl.lon ∧
    pl.distance_m = some (TS.haversine_m c.1 c.2 pl.lat pl.lon) ∧
    TS.haversine_m c.1 c.2 pl.lat pl.lon ≤ r ∧
    pl.distance_miles = some (TS.haversine_m c.1 c.2 pl.lat pl.lon / 1609.344) := by
  unfold TS.keepPlace at h
  cases hp : p.place_id with
  | none => rw [hp] at h; cases h
  | some pid =>
    rw [hp] at h
    dsimp only at h
    by_cases hcond : pid = "" ∨ pid ∈ seen
    · rw [if_pos hcond] at h; cases h
    · rw [if_neg hcond] at h
      push_neg at hcond
      cases hla : p.lat with
      | none => rw [hla] at h; dsimp only at h; cases h
      | some p_lat =>
        cases hlg : p.lng with
        | none => rw [hla, hlg] at h; dsimp only at h; cases h
        | some p_lon =>
          rw [hla, hlg] at h
          dsimp only at h
          by_cases hd : r < TS.haversine_m c.1 c.2 p_lat p_lon
          · rw [if_pos hd] at h; cases h
          · rw [if_neg hd] at h
            obtain rfl := Option.some_injective _ h
            exact ⟨rfl, hcond.2, hcond.1, rfl, rfl, rfl, not_lt.mp hd, rfl⟩

theorem Places_keepPlace_center_only (c : ℝ × ℝ) :
    Places.keepPlace (some c) none = Places.keepPlace none none := by
  funext seen p
  unfold Places.keepPlace
  cases hp : p.place_id with
  | none => rfl
  | some pid =>
    by_cases hcond : pid = "" ∨ pid ∈ seen
    · simp only [if_pos hcond]
    · simp only [if_neg hcond]

theorem Places_keepPlace_radius_only (r : ℝ) :
    Places.keepPlace none (some r) = Places.keepPlace none none := by
  funext seen p
  unfold Places.keepPlace
  cases hp : p.place_id with
  | none => rfl
  | some pid =>
    by_cases hcond : pid = "" ∨ pid ∈ seen
    · simp only [if_pos hcond]
    · simp only [if_neg hcond]

theorem Places_keepPlace_malformed {fc : Option (ℝ × ℝ)} {fr : Option ℝ}
    {seen : List String} {p : RawPlace} (h : p.lat = none ∨ p.lng = none) :
    Places.keepPlace fc fr seen p = none := by
  unfold Places.keepPlace
  cases hp : p.place_id with
  | none => rfl
  | some pid =>
    by_cases hcond : pid = "" ∨ pid ∈ seen
    · simp only [if_pos hcond]
    · simp only [if_neg hcond]
      rcases h with h | h
      · rw [h]
      · cases hl : p.lat with
        | none => rfl
        | some x => rw [h]

theorem TS_keepPlace_malformed {c : ℝ × ℝ} {r : ℝ}
    {seen : List String} {p : RawPlace} (h : p.lat = none ∨ p.lng = none) :
    TS.keepPlace c r seen p = none := by
  unfold TS.keepPlace
  cases hp : p.place_id with
  | none => rfl
  | some pid =>
    by_cases hcond : pid = "" ∨ pid ∈ seen
    · simp only [if_pos hcond]
    · simp only [if_neg hcond]
      rcases h with h | h
      · rw [h]
      · cases hl : p.lat with
        | none => rfl
        | some x => rw [h]

/-! ### Greedy selection lemmas -/

theorem greedyOf_pid_not_seen (keep : List String → RawPlace → Option Place)
    (hkeep : ∀ seen p pl, keep seen p = some pl → pl.place_id ∉ seen) :
    ∀ (l : List RawPlace) (seen : List String) (q : String),
      q ∈ (greedyOf keep seen l).map Place.place_id → q ∉ seen := by
  intro l
  induction l with
  | nil => simp [greedyOf]
  | cons p ps ih =>
    intro seen q hq
    cases hk : keep seen p with
    | none =>
      rw [show greedyOf keep seen (p :: ps) = greedyOf keep seen ps by
        simp [greedyOf, hk]] at hq
      exact ih seen q hq
    | some pl =>
      rw [show greedyOf keep seen (p :: ps) =
          pl :: greedyOf keep (pl.place_id :: seen) ps by simp [greedyOf, hk]] at hq
      rw [List.map_cons, List.mem_cons] at hq
      rcases hq with rfl | hq
      · exact hkeep seen p pl hk
      · exact fun hmem => ih _ q hq (List.mem_cons_of_mem _ hmem)

theorem greedyOf_nodup (keep : List String → RawPlace → Option Place)
    (hkeep : ∀ seen p pl, keep seen p = some pl → pl.place_id ∉ seen) :
    ∀ (l : List RawPlace) (seen : List String),
      ((greedyOf keep seen l).map Place.place_id).Nodup := by
  intro l
  induction l with
  | nil => simp [greedyOf]
  | cons p ps ih =>
    intro seen
    cases hk : keep seen p with
    | none =>
      rw [show greedyOf keep seen (p :: ps) = greedyOf keep seen ps by
        simp [greedyOf, hk]]
      exact ih seen
    | some pl =>
      rw [show greedyOf keep seen (p :: ps) =
          pl :: greedyOf keep (pl.place_id :: seen) ps by simp [greedyOf, hk]]
      rw [List.map_cons, List.nodup_cons]
      constructor
      · intro hmem
        exact greedyOf_pid_not_seen keep hkeep ps _ _ hmem (List.mem_cons_self _ _)
      · exact ih _

theorem greedyOf_mem_keep (keep : List String → RawPlace → Option Place) :
    ∀ (l : List RawPlace) (seen : List String) (pl : Place),
      pl ∈ greedyOf keep seen l →
      ∃ seen' p, p ∈ l ∧ keep seen' p = some pl := by
  intro l
  induction l with
  | nil => simp [greedyOf]
  | cons p ps ih =>
    intro seen pl hmem
    cases hk : keep seen p with
    | none =>
      rw [show greedyOf keep seen (p :: ps) = greedyOf keep seen ps by
        simp [greedyOf, hk]] at hmem
      obtain ⟨seen', p', hp', hk'⟩ := ih seen pl hmem
      exact ⟨seen', p', List.mem_cons_of_mem _ hp', hk'⟩
    | some pl' =>
      rw [show greedyOf keep seen (p :: ps) =
          pl' :: greedyOf keep (pl'.place_id :: seen) ps by simp [greedyOf, hk]] at hmem
      rw [List.mem_cons] at hmem
      rcases hmem with rfl | hmem
      · exact ⟨seen, p, List.mem_cons_self _ _, hk⟩
      · obtain ⟨seen', p', hp', hk'⟩ := ih _ pl hmem
        exact ⟨seen', p', List.mem_cons_of_mem _ hp', hk'⟩

/-! ### The sort orders are transitive and total -/

theorem Places_sortLe_trans (a b c : Place) (hab : Places.sortLe a b = true)
    (hbc : Places.sortLe b c = true) : Places.sortLe a c = true := by
  unfold Places.sortLe at hab hbc ⊢
  cases ha : a.distance_m <;> cases hb : b.distance_m <;> cases hc : c.distance_m <;>
      simp only [ha, hb, hc] at hab hbc ⊢ <;>
    first
    | rfl
    | exact hbc
    | exact hab
    | exact (Bool.false_ne_true hab).elim
    | exact (Bool.false_ne_true hbc).elim
    | exact decide_eq_true (le_trans (of_decide_eq_true hab) (of_decide_eq_true hbc))

theorem Places_sortLe_total (a b : Place) :
    (Places.sortLe a b || Places.sortLe b a) = true := by
  unfold Places.sortLe
  cases ha : a.distance_m <;> cases hb : b.distance_m <;> simp
  exact le_total _ _

theorem TS_sortLe_trans (a b c : Place) (hab : TS.sortLe a b = true)
    (hbc : TS.sortLe b c = true) : TS.sortLe a c = true := by
  unfold TS.sortLe at hab hbc ⊢
  cases ha : a.distance_m <;> cases hb : b.distance_m <;> cases hc : c.distance_m <;>
      simp only [ha, hb, hc] at hab hbc ⊢ <;>
    first
    | rfl
    | exact hbc
    | exact hab
    | exact (Bool.false_ne_true hab).elim
    | exact (Bool.false_ne_true hbc).elim
    | exact decide_eq_true (le_trans (of_decide_eq_true hab) (of_decide_eq_true hbc))

theorem TS_sortLe_total (a b : Place) : (TS.sortLe a b || TS.sortLe b a) = true := by
  unfold TS.sortLe
  cases ha : a.distance_m <;> cases hb : b.distance_m <;> simp
  exact le_total _ _

/-! ### Collector run characterizations -/

theorem collect_places_filtered_ok {client : ℝ × ℝ → ℕ → Response} {mp : ℕ}
    {tiles : List (ℝ × ℝ)} {c : ℝ × ℝ} {r : ℝ} {out : List Place}
    (hok : collect_places client mp tiles (some c) (some r) = Except.ok out) :
    ∃ raw : List RawPlace,
      out = (greedyOf (Places.keepPlace (some c) (some r)) [] raw).mergeSort
        Places.sortLe := by
  unfold collect_places at hok
  cases hta : collectTilesAux (fun t => nearby_search_tile (client t) mp)
      (stepOf (Places.keepPlace (some c) (some r))) tiles ([], []) with
  | error e => rw [hta] at hok; cases hok
  | ok st =>
    rw [hta] at hok
    dsimp only at hok
    injection hok with h
    obtain ⟨raw, hst⟩ := collectTilesAux_ok_ex _ _ tiles _ _ hta
    refine ⟨raw, ?_⟩
    have h2 : st.2 = greedyOf (Places.keepPlace (some c) (some r)) [] raw := by
      rw [hst, foldl_stepOf_eq]
      simp
    rw [← h, h2]

theorem collect_places_ok_stream {client : ℝ × ℝ → ℕ → Response} {mp : ℕ}
    {tiles : List (ℝ × ℝ)} {fc : Option (ℝ × ℝ)} {fr : Option ℝ} {out : List Place}
    (hok : collect_places client mp tiles fc fr = Except.ok out) :
    ∃ raw : List RawPlace,
      ∀ p ∈ out, p ∈ greedyOf (Places.keepPlace fc fr) [] raw := by
  unfold collect_places at hok
  cases hta : collectTilesAux (fun t => nearby_search_tile (client t) mp)
      (stepOf (Places.keepPlace fc fr)) tiles ([], []) with
  | error e => rw [hta] at hok; cases hok
  | ok st =>
    rw [hta] at hok
    obtain ⟨raw, hst⟩ := collectTilesAux_ok_ex _ _ tiles _ _ hta
    have h2 : st.2 = greedyOf (Places.keepPlace fc fr) [] raw := by
      rw [hst, foldl_stepOf_eq]
      simp
    refine ⟨raw, ?_⟩
    intro p hp
    cases fc with
    | none =>
      dsimp only at hok
      injection hok with h
      rw [← h2, h]
      exact hp
    | some c =>
      cases fr with
      | none =>
        dsimp only at hok
        injection hok with h
        rw [← h2, h]
        exact hp
      | some r =>
        dsimp only at hok
        injection hok with h
        rw [← h2]
        rw [← h, List.mem_mergeSort] at hp
        exact hp

theorem collect_ts_ok {resp : ℕ → Response} {mp : ℕ} {c : ℝ × ℝ} {r : ℝ}
    {out : List Place}
    (hok : collect_places_textsearch resp mp c r = Except.ok out) :
    ∃ raw, text_search_pages resp mp = Except.ok raw ∧
      out = (greedyOf (TS.keepPlace c r) [] raw).mergeSort TS.sortLe := by
  unfold collect_places_textsearch at hok
  cases ht : text_search_pages resp mp with
  | error e => rw [ht] at hok; cases hok
  | ok raw =>
    rw [ht] at hok
    dsimp only at hok
    injection hok with h
    refine ⟨raw, rfl, ?_⟩
    rw [← h, foldl_stepOf_eq]
    simp

/-! ### Evaluation of the concrete fixtures -/

theorem nearby_clientA_eval (t : ℝ × ℝ) :
    nearby_search_tile (clientA t) 1 = Except.ok [rawA] := rfl

theorem Places_hav00 : Places.haversine_m 0 0 0 0 = 0 := by
  rw [Places_haversine_m_eq]
  exact haversine_m_self 0 0

theorem TS_hav00 : TS.haversine_m 0 0 0 0 = 0 := by
  rw [TS_haversine_m_eq]
  exact haversine_m_self 0 0

theorem keepPlace_rawA_eval :
    Places.keepPlace (some ((0 : ℝ), (0 : ℝ))) (some (1 : ℝ)) [] rawA = some pA := by
  unfold Places.keepPlace rawA
  dsimp only
  rw [if_neg (by simp)]
  rw [Places_hav00]
  rw [if_neg (by norm_num), show (0 : ℝ) / 1609.344 = 0 by norm_num]
  rfl

theorem collect_places_A_eval :
    collect_places clientA 1 [((0 : ℝ), (0 : ℝ))] (some ((0 : ℝ), (0 : ℝ)))
      (some (1 : ℝ)) = Except.ok [pA] := by
  unfold collect_places
  rw [show collectTilesAux
      (fun t => nearby_search_tile (clientA t) 1)
      (stepOf (Places.keepPlace (some ((0 : ℝ), (0 : ℝ))) (some (1 : ℝ))))
      [((0 : ℝ), (0 : ℝ))] ([], []) = Except.ok (["a"], [pA]) from ?_]
  · dsimp only
    rw [List.mergeSort_singleton]
  · simp only [collectTilesAux, nearby_clientA_eval]
    simp only [List.foldl_cons, List.foldl_nil, stepOf, keepPlace_rawA_eval]
    rfl

theorem keepPlace_ts_rawA_eval :
    TS.keepPlace ((0 : ℝ), (0 : ℝ)) 1 [] rawA = some pA := by
  unfold TS.keepPlace rawA
  dsimp only
  rw [if_neg (by simp)]
  rw [TS_hav00]
  rw [if_neg (by norm_num), show (0 : ℝ) / 1609.344 = 0 by norm_num]
  rfl

theorem collect_ts_A_eval :
    collect_places_textsearch respA 1 ((0 : ℝ), (0 : ℝ)) 1 = Except.ok [pA] := by
  unfold collect_places_textsearch
  rw [show text_search_pages respA 1 = Except.ok [rawA] from rfl]
  try dsimp only
  simp only [List.foldl_cons, List.foldl_nil, stepOf, keepPlace_ts_rawA_eval]
  try dsimp only
  rw [List.nil_append, List.mergeSort_singleton]

/-! ### C1 and C2 -/

/-- C1: in every filtered collector run, each returned entry's haversine
distance to the filter center is at most the filter radius (boundary
included), and that distance is what the entry's distance_m field records. -/
theorem C1_filtered_within_radius :
    (∀ (client : ℝ × ℝ → ℕ → Response) (mp : ℕ) (tiles : List (ℝ × ℝ))
      (c : ℝ × ℝ) (r : ℝ) (out : List Place),
      collect_places client mp tiles (some c) (some r) = Except.ok out →
      ∀ p ∈ out,
        p.distance_m = some (Places.haversine_m c.1 c.2 p.lat p.lon) ∧
        Places.haversine_m c.1 c.2 p.lat p.lon ≤ r) ∧
    (∀ (resp : ℕ → Response) (mp : ℕ) (c : ℝ × ℝ) (r : ℝ) (out : List Place),
      collect_places_textsearch resp mp c r = Except.ok out →
      ∀ p ∈ out,
        p.distance_m = some (TS.haversine_m c.1 c.2 p.lat p.lon) ∧
        TS.haversine_m c.1 c.2 p.lat p.lon ≤ r) := by
  constructor
  · intro client mp tiles c r out hok p hp
    obtain ⟨raw, hmem⟩ := collect_places_ok_stream hok
    obtain ⟨seen', p', hp', hk⟩ := greedyOf_mem_keep _ raw [] p (hmem p hp)
    obtain ⟨-, -, -, -, -, hdist⟩ := Places_keepPlace_inv hk
    rcases hdist with ⟨c', r', hc', hr', hdm, hle, -⟩ | ⟨hcn, -, -⟩
    · obtain rfl : c = c' := by injection hc'
      obtain rfl : r = r' := by injection hr'
      exact ⟨hdm, hle⟩
    · rcases hcn with h | h <;> cases h
  · intro resp mp c r out hok p hp
    obtain ⟨raw, -, hout⟩ := collect_ts_ok hok
    rw [hout, List.mem_mergeSort] at hp
    obtain ⟨seen', p', hp', hk⟩ := greedyOf_mem_keep _ raw [] p hp
    obtain ⟨-, -, -, -, -, hdm, hle, -⟩ := TS_keepPlace_inv hk
    exact ⟨hdm, hle⟩

/-- Witness for C1: a concrete run of each collector with a record at the
filter center. -/
theorem C1_filtered_within_radius_witness :
    (collect_places clientA 1 [((0 : ℝ), (0 : ℝ))] (some ((0 : ℝ), (0 : ℝ)))
        (some (1 : ℝ)) = Except.ok [pA] ∧
      ∀ p ∈ [pA],
        p.distance_m = some (Places.haversine_m 0 0 p.lat p.lon) ∧
        Places.haversine_m 0 0 p.lat p.lon ≤ 1) ∧
    (collect_places_textsearch respA 1 ((0 : ℝ), (0 : ℝ)) 1 = Except.ok [pA] ∧
      ∀ p ∈ [pA],
        p.distance_m = some (TS.haversine_m 0 0 p.lat p.lon) ∧
        TS.haversine_m 0 0 p.lat p.lon ≤ 1) :=
  ⟨⟨collect_places_A_eval,
      C1_filtered_within_radius.1 clientA 1 [((0 : ℝ), (0 : ℝ))] ((0 : ℝ), (0 : ℝ)) 1
        [pA] collect_places_A_eval⟩,
    ⟨collect_ts_A_eval,
      C1_filtered_within_radius.2 respA 1 ((0 : ℝ), (0 : ℝ)) 1 [pA] collect_ts_A_eval⟩⟩

/-- C2: the output of every filtered collector run is non-decreasing in
distance_m along the returned sequence. -/
theorem C2_sorted_by_distance :
    (∀ (client : ℝ × ℝ → ℕ → Response) (mp : ℕ) (tiles : List (ℝ × ℝ))
      (c : ℝ × ℝ) (r : ℝ) (out : List Place),
      collect_places client mp tiles (some c) (some r) = Except.ok out →
      out.Chain' (fun p q => ∃ a b,
        p.distance_m = some a ∧ q.distance_m = some b ∧ a ≤ b)) ∧
    (∀ (resp : ℕ → Response) (mp : ℕ) (c : ℝ × ℝ) (r : ℝ) (out : List Place),
      collect_places_textsearch resp mp c r = Except.ok out →
      out.Chain' (fun p q => ∃ a b,
        p.distance_m = some a ∧ q.distance_m = some b ∧ a ≤ b)) := by
  constructor
  · intro client mp tiles c r out hok
    obtain ⟨raw, hout⟩ := collect_places_filtered_ok hok
    have hsome : ∀ p ∈ out, ∃ d, p.distance_m = some d := by
      intro p hp
      obtain ⟨raw', hmem⟩ := collect_places_ok_stream hok
      obtain ⟨seen', p', hp', hk⟩ := greedyOf_mem_keep _ raw' [] p (hmem p hp)
      obtain ⟨-, -, -, -, -, hdist⟩ := Places_keepPlace_inv hk
      rcases hdist with ⟨c', r', -, -, hdm, -, -⟩ | ⟨hcn, -, -⟩
      · exact ⟨_, hdm⟩
      · rcases hcn with h | h <;> cases h
    have hpair : out.Pairwise (fun p q => Places.sortLe p q = true) := by
      rw [hout]
      exact List.sorted_mergeSort Places_sortLe_trans Places_sortLe_total _
    refine (hpair.imp_of_mem ?_).chain'
    intro a b ha hb hle
    obtain ⟨da, hda⟩ := hsome a ha
    obtain ⟨db, hdb⟩ := hsome b hb
    refine ⟨da, db, hda, hdb, ?_⟩
    unfold Places.sortLe at hle
    rw [hda, hdb] at hle
    exact of_decide_eq_true hle
  · intro resp mp c r out hok
    obtain ⟨raw, -, hout⟩ := collect_ts_ok hok
    have hsome : ∀ p ∈ out, ∃ d, p.distance_m = some d := by
      intro p hp
      rw [hout, List.mem_mergeSort] at hp
      obtain ⟨seen', p', hp', hk⟩ := greedyOf_mem_keep _ raw [] p hp
      obtain ⟨-, -, -, -, -, hdm, -, -⟩ := TS_keepPlace_inv hk
      exact ⟨_, hdm⟩
    have hpair : out.Pairwise (fun p q => TS.sortLe p q = true) := by
      rw [hout]
      exact List.sorted_mergeSort TS_sortLe_trans TS_sortLe_total _
    refine (hpair.imp_of_mem ?_).chain'
    intro a b ha hb hle
    obtain ⟨da, hda⟩ := hsome a ha
    obtain ⟨db, hdb⟩ := hsome b hb
    refine ⟨da, db, hda, hdb, ?_⟩
    unfold TS.sortLe at hle
    rw [hda, hdb] at hle
    exact of_decide_eq_true hle

/-- Witness for C2: the same concrete runs. -/
theorem C2_sorted_by_distance_witness :
    (collect_places clientA 1 [((0 : ℝ), (0 : ℝ))] (some ((0 : ℝ), (0 : ℝ)))
        (some (1 : ℝ)) = Except.ok [pA] ∧
      List.Chain' (fun p q => ∃ a b,
        p.distance_m = some a ∧ q.distance_m = some b ∧ a ≤ b) [pA]) ∧
    (collect_places_textsearch respA 1 ((0 : ℝ), (0 : ℝ)) 1 = Except.ok [pA] ∧
      List.Chain' (fun p q => ∃ a b,
        p.distance_m = some a ∧ q.distance_m = some b ∧ a ≤ b) [pA]) :=
  ⟨⟨collect_places_A_eval,
      C2_sorted_by_distance.1 clientA 1 [((0 : ℝ), (0 : ℝ))] ((0 : ℝ), (0 : ℝ)) 1
        [pA] collect_places_A_eval⟩,
    ⟨collect_ts_A_eval,
      C2_sorted_by_distance.2 respA 1 ((0 : ℝ), (0 : ℝ)) 1 [pA] collect_ts_A_eval⟩⟩

theorem keepPlace_ts_rawDup2_eval :
    TS.keepPlace ((0 : ℝ), (0 : ℝ)) 1 [] rawDup2 = some pB := by
  unfold TS.keepPlace rawDup2
  dsimp only
  rw [if_neg (by simp)]
  rw [TS_hav00]
  rw [if_neg (by norm_num), show (0 : ℝ) / 1609.344 = 0 by norm_num]
  rfl

theorem collect_ts_dup_eval :
    collect_places_textsearch respDup 1 ((0 : ℝ), (0 : ℝ)) 1 = Except.ok [pB] := by
  unfold collect_places_textsearch
  rw [show text_search_pages respDup 1 = Except.ok [rawDup1, rawDup2] from rfl]
  try dsimp only
  have h1 : TS.keepPlace ((0 : ℝ), (0 : ℝ)) 1 [] rawDup1 = none :=
    TS_keepPlace_malformed (Or.inl rfl)
  simp only [List.foldl_cons, List.foldl_nil, stepOf, h1, keepPlace_ts_rawDup2_eval]
  try dsimp only
  rw [List.nil_append, List.mergeSort_singleton]

/-! ### C3 -/

/-- C3 as frozen is false on the code: when the first occurrence of an
identifier lacks coordinates, it is skipped without registering the
identifier, so the kept entry is built from a later occurrence of the same
identifier, not from the first occurrence of the merged stream. -/
theorem C3_counterexample :
    collect_places_textsearch respDup 1 ((0 : ℝ), (0 : ℝ)) 1 = Except.ok [pB] ∧
    (respDup 0).results = [rawDup1, rawDup2] ∧
    rawDup1.place_id = some "a" ∧ rawDup2.place_id = some "a" ∧
    pB.place_id = "a" ∧
    rawDup1.name = some "A" ∧ rawDup2.name = some "B" ∧
    pB.name = some "B" ∧ pB.name ≠ rawDup1.name :=
  ⟨collect_ts_dup_eval, rfl, rfl, rfl, rfl, rfl, rfl, rfl, by decide⟩

/-- C3 amended: no two entries of any collector output share a place_id, and
the set of kept entries is exactly the greedy selection in stream order in
which an occurrence is kept precisely when its identifier is truthy and not
yet taken, its coordinates are present, and it passes the distance filter —
i.e. the first surviving occurrence of each identifier wins. -/
theorem C3_amended_first_surviving_occurrence :
    (∀ (client : ℝ × ℝ → ℕ → Response) (mp : ℕ) (tiles : List (ℝ × ℝ))
      (fc : Option (ℝ × ℝ)) (fr : Option ℝ) (L : ℝ × ℝ → List RawPlace)
      (out : List Place),
      (∀ t ∈ tiles, nearby_search_tile (client t) mp = Except.ok (L t)) →
      collect_places client mp tiles fc fr = Except.ok out →
      out.Perm (greedyOf (Places.keepPlace fc fr) [] (tiles.flatMap L)) ∧
      (out.map Place.place_id).Nodup) ∧
    (∀ (resp : ℕ → Response) (mp : ℕ) (c : ℝ × ℝ) (r : ℝ)
      (raw : List RawPlace) (out : List Place),
      text_search_pages resp mp = Except.ok raw →
      collect_places_textsearch resp mp c r = Except.ok out →
      out.Perm (greedyOf (TS.keepPlace c r) [] raw) ∧
      (out.map Place.place_id).Nodup) := by
  constructor
  · intro client mp tiles fc fr L out hfetch hok
    unfold collect_places at hok
    rw [collectTilesAux_ok_of_fetch _ _ L tiles ([], []) hfetch] at hok
    rw [foldl_stepOf_eq] at hok
    have hperm : out.Perm (greedyOf (Places.keepPlace fc fr) [] (tiles.flatMap L)) := by
      cases fc with
      | none =>
        dsimp only at hok
        injection hok with h
        rw [← h, List.nil_append]
      | some c =>
        cases fr with
        | none =>
          dsimp only at hok
          injection hok with h
          rw [← h, List.nil_append]
        | some r =>
          dsimp only at hok
          injection hok with h
          rw [← h, List.nil_append]
          exact List.mergeSort_perm _ _
    refine ⟨hperm, ?_⟩
    have hnodup := greedyOf_nodup (Places.keepPlace fc fr)
      (fun seen p pl hk => (Places_keepPlace_inv hk).2.1) (tiles.flatMap L) []
    exact ((hperm.map Place.place_id).symm).nodup hnodup
  · intro resp mp c r raw out ht hok
    obtain ⟨raw', ht', hout⟩ := collect_ts_ok hok
    rw [ht] at ht'
    injection ht' with hr
    subst hr
    have hnodup := greedyOf_nodup (TS.keepPlace c r)
      (fun seen p pl hk => (TS_keepPlace_inv hk).2.1) raw []
    constructor
    · rw [hout]
      exact List.mergeSort_perm _ _
    · rw [hout]
      exact (((List.mergeSort_perm _ TS.sortLe).map Place.place_id).symm).nodup hnodup

/-- Witness for the amended C3 at concrete runs of both collectors. -/
theorem C3_amended_first_surviving_occurrence_witness :
    (([pA].Perm (greedyOf (Places.keepPlace (some ((0 : ℝ), (0 : ℝ))) (some (1 : ℝ)))
        [] ([((0 : ℝ), (0 : ℝ))].flatMap (fun _ => [rawA])))) ∧
      ([pA].map Place.place_id).Nodup) ∧
    (([pB].Perm (greedyOf (TS.keepPlace ((0 : ℝ), (0 : ℝ)) 1) [] [rawDup1, rawDup2])) ∧
      ([pB].map Place.place_id).Nodup) :=
  ⟨C3_amended_first_surviving_occurrence.1 clientA 1 [((0 : ℝ), (0 : ℝ))]
      (some ((0 : ℝ), (0 : ℝ))) (some 1) (fun _ => [rawA]) [pA]
      (fun t _ => nearby_clientA_eval t) collect_places_A_eval,
    C3_amended_first_surviving_occurrence.2 respDup 1 ((0 : ℝ), (0 : ℝ)) 1
      [rawDup1, rawDup2] [pB] rfl collect_ts_dup_eval⟩

/-! ### C6: upstream status failures abort the collection -/

theorem searchPagesAux_reach_error
    (em : Option String → Option String → String) (resp : ℕ → Response) (mp : ℕ) :
    ∀ (k fuel page : ℕ) (acc : List RawPlace),
      (∀ j, j < k → goodStatus (resp (page + j)) ∧
        pyTruthy (resp (page + j)).next_page_token = true ∧ page + j + 1 < mp) →
      ¬ goodStatus (resp (page + k)) → k ≤ fuel →
      searchPagesAux em resp mp fuel page acc =
        Except.error (em (resp (page + k)).status (resp (page + k)).error_message) := by
  intro k
  induction k with
  | zero =>
    intro fuel page acc hreach hbad hfuel
    unfold goodStatus at hbad
    simp only [Nat.add_zero] at hbad ⊢
    rw [searchPagesAux]
    dsimp only
    rw [if_neg hbad]
  | succ k ih =>
    intro fuel page acc hreach hbad hfuel
    obtain ⟨hgood, htok, hlt⟩ := hreach 0 (Nat.succ_pos k)
    rw [Nat.add_zero] at hgood htok hlt
    unfold goodStatus at hgood
    rw [searchPagesAux]
    dsimp only
    rw [if_pos hgood]
    have hcont : ¬ (pyTruthy (resp page).next_page_token = false ∨ mp ≤ page + 1) := by
      rintro (h | h)
      · rw [htok] at h; cases h
      · omega
    rw [if_neg hcont]
    cases fuel with
    | zero => omega
    | succ fuel' =>
      dsimp only
      have hreach' : ∀ j, j < k → goodStatus (resp (page + 1 + j)) ∧
          pyTruthy (resp (page + 1 + j)).next_page_token = true ∧
          page + 1 + j + 1 < mp := by
        intro j hj
        have h := hreach (j + 1) (by omega)
        rwa [show page + (j + 1) = page + 1 + j by omega] at h
      have hbad' : ¬ goodStatus (resp (page + 1 + k)) := by
        rwa [show page + 1 + k = page + (k + 1) by omega]
      rw [ih fuel' (page + 1) (acc ++ (resp page).results) hreach' hbad' (by omega)]
      rw [show page + 1 + k = page + (k + 1) by omega]

theorem nearby_search_tile_error (resp : ℕ → Response) (mp k : ℕ)
    (hreach : ∀ j, j < k → goodStatus (resp j) ∧
      pyTruthy (resp j).next_page_token = true ∧ j + 1 < mp)
    (hbad : ¬ goodStatus (resp k)) :
    nearby_search_tile resp mp =
      Except.error (nearbyErrorMsg (resp k).status (resp k).error_message) := by
  have hk : k ≤ mp := by
    cases k with
    | zero => exact Nat.zero_le mp
    | succ k' => exact le_of_lt ((hreach k' (Nat.lt_succ_self k')).2.2)
  have h := searchPagesAux_reach_error nearbyErrorMsg resp mp k mp 0 []
    (fun j hj => by rw [Nat.zero_add]; exact hreach j hj)
    (by rw [Nat.zero_add]; exact hbad) hk
  rw [Nat.zero_add] at h
  unfold nearby_search_tile
  exact h

theorem text_search_pages_error (resp : ℕ → Response) (mp k : ℕ)
    (hreach : ∀ j, j < k → goodStatus (resp j) ∧
      pyTruthy (resp j).next_page_token = true ∧ j + 1 < mp)
    (hbad : ¬ goodStatus (resp k)) :
    text_search_pages resp mp =
      Except.error (textErrorMsg (resp k).status (resp k).error_message) := by
  have hk : k ≤ mp := by
    cases k with
    | zero => exact Nat.zero_le mp
    | succ k' => exact le_of_lt ((hreach k' (Nat.lt_succ_self k')).2.2)
  have h := searchPagesAux_reach_error textErrorMsg resp mp k mp 0 []
    (fun j hj => by rw [Nat.zero_add]; exact hreach j hj)
    (by rw [Nat.zero_add]; exact hbad) hk
  rw [Nat.zero_add] at h
  unfold text_search_pages
  exact h

/-- C6: a response status other than OK / ZERO_RESULTS makes the page loops
raise an error carrying the status and upstream message, both collectors
propagate that error, and no result list is returned (merged partial results
are discarded with it). -/
theorem C6_upstream_status_failure :
    (∀ (resp : ℕ → Response) (mp k : ℕ),
      (∀ j, j < k → goodStatus (resp j) ∧
        pyTruthy (resp j).next_page_token = true ∧ j + 1 < mp) →
      ¬ goodStatus (resp k) →
      nearby_search_tile resp mp =
        Except.error (nearbyErrorMsg (resp k).status (resp k).error_message)) ∧
    (∀ (resp : ℕ → Response) (mp k : ℕ),
      (∀ j, j < k → goodStatus (resp j) ∧
        pyTruthy (resp j).next_page_token = true ∧ j + 1 < mp) →
      ¬ goodStatus (resp k) →
      text_search_pages resp mp =
        Except.error (textErrorMsg (resp k).status (resp k).error_message)) ∧
    (∀ (s : String) (msg : Option String),
      ∃ u v, nearbyErrorMsg (some s) msg = u ++ s ++ v) ∧
    (∀ (s : String) (msg : Option String),
      ∃ u v, textErrorMsg (some s) msg = u ++ s ++ v) ∧
    (∀ (status msg : Option String),
      ∃ u v, nearbyErrorMsg status msg = u ++ renderPyOpt msg ++ v) ∧
    (∀ (status msg : Option String),
      ∃ u v, textErrorMsg status msg = u ++ renderPyOpt msg ++ v) ∧
    (∀ (client : ℝ × ℝ → ℕ → Response) (mp : ℕ) (t1 : List (ℝ × ℝ)) (t : ℝ × ℝ)
      (t2 : List (ℝ × ℝ)) (fc : Option (ℝ × ℝ)) (fr : Option ℝ) (e : String),
      (∀ t' ∈ t1, ∃ l, nearby_search_tile (client t') mp = Except.ok l) →
      nearby_search_tile (client t) mp = Except.error e →
      collect_places client mp (t1 ++ t :: t2) fc fr = Except.error e) ∧
    (∀ (resp : ℕ → Response) (mp : ℕ) (c : ℝ × ℝ) (r : ℝ) (e : String),
      text_search_pages resp mp = Except.error e →
      collect_places_textsearch resp mp c r = Except.error e) := by
  refine ⟨nearby_search_tile_error, text_search_pages_error, ?_, ?_, ?_, ?_, ?_, ?_⟩
  · intro s msg
    refine ⟨"Nearby Search error: status=", ", msg=" ++ renderPyOpt msg, ?_⟩
    unfold nearbyErrorMsg
    rw [show renderPyOpt (some s) = s from rfl]
    rw [String.append_assoc ("Nearby Search error: status=" ++ s) ", msg="
      (renderPyOpt msg)]
  · intro s msg
    refine ⟨"Text Search error: status=", ", msg=" ++ renderPyOpt msg, ?_⟩
    unfold textErrorMsg
    rw [show renderPyOpt (some s) = s from rfl]
    rw [String.append_assoc ("Text Search error: status=" ++ s) ", msg="
      (renderPyOpt msg)]
  · intro status msg
    refine ⟨"Nearby Search error: status=" ++ renderPyOpt status ++ ", msg=", "", ?_⟩
    rw [String.append_empty]
    rfl
  · intro status msg
    refine ⟨"Text Search error: status=" ++ renderPyOpt status ++ ", msg=", "", ?_⟩
    rw [String.append_empty]
    rfl
  · intro client mp t1 t t2 fc fr e h1 he
    unfold collect_places
    rw [collectTilesAux_error_prop _ _ t t2 e t1 ([], []) h1 he]
  · intro resp mp c r e he
    unfold collect_places_textsearch
    rw [he]

/-- Witness for C6: a failing first page, a failure on a continuation page
after a merged successful page, and both collectors returning the error. -/
theorem C6_upstream_status_failure_witness :
    nearby_search_tile respBad 3 =
      Except.error (nearbyErrorMsg (some "OVER_QUERY_LIMIT") (some "quota exceeded")) ∧
    text_search_pages respBad2 3 =
      Except.error (textErrorMsg (some "OVER_QUERY_LIMIT") (some "quota exceeded")) ∧
    collect_places clientBad 3 [((0 : ℝ), (0 : ℝ))] none none =
      Except.error (nearbyErrorMsg (some "OVER_QUERY_LIMIT") (some "quota exceeded")) ∧
    collect_places_textsearch respBad2 3 ((0 : ℝ), (0 : ℝ)) 1 =
      Except.error (textErrorMsg (some "OVER_QUERY_LIMIT") (some "quota exceeded")) := by
  refine ⟨?_, ?_, ?_, ?_⟩
  · exact C6_upstream_status_failure.1 respBad 3 0
      (fun j hj => absurd hj (by omega)) (by unfold goodStatus; decide)
  · exact C6_upstream_status_failure.2.1 respBad2 3 1
      (fun j hj => by
        have hj0 : j = 0 := by omega
        subst hj0
        exact ⟨Or.inl rfl, rfl, by omega⟩)
      (by unfold goodStatus; decide)
  · exact C6_upstream_status_failure.2.2.2.2.2.2.1 clientBad 3 [] ((0 : ℝ), (0 : ℝ))
      [] none none _ (fun t' ht' => absurd ht' (by simp)) rfl
  · exact C6_upstream_status_failure.2.2.2.2.2.2.2 respBad2 3 ((0 : ℝ), (0 : ℝ)) 1 _
      (text_search_pages_error respBad2 3 1
        (fun j hj => by
          have hj0 : j = 0 := by omega
          subst hj0
          exact ⟨Or.inl rfl, rfl, by omega⟩)
        (by unfold goodStatus; decide))

/-! ### C7: malformed records are skipped, not errors -/

theorem foldl_step_skip (step : CollectState → RawPlace → CollectState) (r : RawPlace)
    (hr : ∀ st, step st r = st) :
    ∀ (X Y : List RawPlace) (st : CollectState),
      List.foldl step st (X ++ r :: Y) = List.foldl step st (X ++ Y) := by
  intro X Y st
  rw [List.foldl_append, List.foldl_append, List.foldl_cons, hr]

theorem collectTilesAux_congr_removal
    (fetch1 fetch2 : ℝ × ℝ → Except String (List RawPlace))
    (step : CollectState → RawPlace → CollectState) (r : RawPlace)
    (hr : ∀ st, step st r = st)
    (hf : ∀ t, fetch1 t = fetch2 t ∨
      ∃ X Y, fetch1 t = Except.ok (X ++ r :: Y) ∧ fetch2 t = Except.ok (X ++ Y)) :
    ∀ (ts : List (ℝ × ℝ)) (st : CollectState),
      collectTilesAux fetch1 step ts st = collectTilesAux fetch2 step ts st := by
  intro ts
  induction ts with
  | nil => intro st; rfl
  | cons t ts ih =>
    intro st
    rcases hf t with h | ⟨X, Y, h1, h2⟩
    · simp only [collectTilesAux, h]
      cases hft : fetch2 t with
      | error e => rfl
      | ok results => exact ih _
    · simp only [collectTilesAux, h1, h2]
      rw [foldl_step_skip step r hr X Y st]
      exact ih _

theorem collectTilesAux_ok_total
    (fetch : ℝ × ℝ → Except String (List RawPlace))
    (step : CollectState → RawPlace → CollectState) :
    ∀ (ts : List (ℝ × ℝ)) (st : CollectState),
      (∀ t ∈ ts, ∃ l, fetch t = Except.ok l) →
      ∃ st', collectTilesAux fetch step ts st = Except.ok st' := by
  intro ts
  induction ts with
  | nil => intro st _; exact ⟨st, rfl⟩
  | cons t ts ih =>
    intro st h
    obtain ⟨l, hl⟩ := h t (List.mem_cons_self t ts)
    simp only [collectTilesAux, hl]
    exact ih _ (fun x hx => h x (List.mem_cons_of_mem _ hx))

/-- C7: a raw record whose coordinates are absent is excluded from both
collectors' outputs without raising: removing it from the fetched stream does
not change either collector's result, and runs whose fetches succeed always
return ok (malformed records never abort a collection). -/
theorem C7_malformed_record_skipped :
    (∀ (client1 client2 : ℝ × ℝ → ℕ → Response) (mp : ℕ) (tiles : List (ℝ × ℝ))
      (fc : Option (ℝ × ℝ)) (fr : Option ℝ) (r : RawPlace),
      (r.lat = none ∨ r.lng = none) →
      (∀ t : ℝ × ℝ,
        nearby_search_tile (client1 t) mp = nearby_search_tile (client2 t) mp ∨
        ∃ X Y, nearby_search_tile (client1 t) mp = Except.ok (X ++ r :: Y) ∧
          nearby_search_tile (client2 t) mp = Except.ok (X ++ Y)) →
      collect_places client1 mp tiles fc fr = collect_places client2 mp tiles fc fr) ∧
    (∀ (resp1 resp2 : ℕ → Response) (mp : ℕ) (c : ℝ × ℝ) (rr : ℝ) (r : RawPlace)
      (X Y : List RawPlace),
      (r.lat = none ∨ r.lng = none) →
      text_search_pages resp1 mp = Except.ok (X ++ r :: Y) →
      text_search_pages resp2 mp = Except.ok (X ++ Y) →
      collect_places_textsearch resp1 mp c rr =
        collect_places_textsearch resp2 mp c rr) ∧
    (∀ (client : ℝ × ℝ → ℕ → Response) (mp : ℕ) (tiles : List (ℝ × ℝ))
      (fc : Option (ℝ × ℝ)) (fr : Option ℝ),
      (∀ t ∈ tiles, ∃ l, nearby_search_tile (client t) mp = Except.ok l) →
      ∃ out, collect_places client mp tiles fc fr = Except.ok out) ∧
    (∀ (resp : ℕ → Response) (mp : ℕ) (c : ℝ × ℝ) (rr : ℝ) (raw : List RawPlace),
      text_search_pages resp mp = Except.ok raw →
      ∃ out, collect_places_textsearch resp mp c rr = Except.ok out) := by
  refine ⟨?_, ?_, ?_, ?_⟩
  · intro client1 client2 mp tiles fc fr r hmal hf
    unfold collect_places
    rw [collectTilesAux_congr_removal _ _ _ r
      (fun st => by simp [stepOf, Places_keepPlace_malformed hmal]) hf tiles ([], [])]
  · intro resp1 resp2 mp c rr r X Y hmal h1 h2
    unfold collect_places_textsearch
    rw [h1, h2]
    dsimp only
    rw [foldl_step_skip _ r
      (fun st => by simp [stepOf, TS_keepPlace_malformed hmal]) X Y ([], [])]
  · intro client mp tiles fc fr h
    obtain ⟨st', hst⟩ := collectTilesAux_ok_total _
      (stepOf (Places.keepPlace fc fr)) tiles ([], []) h
    unfold collect_places
    rw [hst]
    cases fc with
    | none => exact ⟨st'.2, rfl⟩
    | some c =>
      cases fr with
      | none => exact ⟨st'.2, rfl⟩
      | some rr2 => exact ⟨_, rfl⟩
  · intro resp mp c rr raw ht
    unfold collect_places_textsearch
    rw [ht]
    exact ⟨_, rfl⟩

/-- Witness for C7: a geometry-less record in the stream of either collector
changes nothing, and the runs stay successful. -/
theorem C7_malformed_record_skipped_witness :
    (rawNoGeo.lat = none ∨ rawNoGeo.lng = none) ∧
    collect_places clientM1 1 [((0 : ℝ), (0 : ℝ))] (some ((0 : ℝ), (0 : ℝ)))
        (some 1) =
      collect_places clientM2 1 [((0 : ℝ), (0 : ℝ))] (some ((0 : ℝ), (0 : ℝ)))
        (some 1) ∧
    collect_places_textsearch respM1 1 ((0 : ℝ), (0 : ℝ)) 1 =
      collect_places_textsearch respM2 1 ((0 : ℝ), (0 : ℝ)) 1 ∧
    (∃ out, collect_places_textsearch respM1 1 ((0 : ℝ), (0 : ℝ)) 1 = Except.ok out) :=
  ⟨Or.inl rfl,
    C7_malformed_record_skipped.1 clientM1 clientM2 1 [((0 : ℝ), (0 : ℝ))]
      (some ((0 : ℝ), (0 : ℝ))) (some 1) rawNoGeo (Or.inl rfl)
      (fun _ => Or.inr ⟨[], [rawA], rfl, rfl⟩),
    C7_malformed_record_skipped.2.1 respM1 respM2 1 ((0 : ℝ), (0 : ℝ)) 1 rawNoGeo
      [] [rawA] (Or.inl rfl) rfl rfl,
    C7_malformed_record_skipped.2.2.2 respM1 1 ((0 : ℝ), (0 : ℝ)) 1
      [rawNoGeo, rawA] rfl⟩

/-! ### C10: both filter arguments are required together -/

theorem keepPlace_rawA_nofilter_eval :
    Places.keepPlace (some ((0 : ℝ), (0 : ℝ))) none [] rawA = some pA0 := rfl

theorem collect_places_A_center_only_eval :
    collect_places clientA 1 [((0 : ℝ), (0 : ℝ))] (some ((0 : ℝ), (0 : ℝ))) none =
      Except.ok [pA0] := rfl

theorem collect_places_A_radius_only_eval :
    collect_places clientA 1 [((0 : ℝ), (0 : ℝ))] none (some 1) =
      Except.ok [pA0] := rfl

/-- C10: with only one of the two filter arguments supplied, collect_places
behaves exactly as with no filter at all — no distance filter, no sort
(output in insertion order of the merged stream), and all distance fields
are none. -/
theorem C10_partial_filter_args_ignored :
    (∀ (client : ℝ × ℝ → ℕ → Response) (mp : ℕ) (tiles : List (ℝ × ℝ)) (c : ℝ × ℝ),
      collect_places client mp tiles (some c) none =
        collect_places client mp tiles none none) ∧
    (∀ (client : ℝ × ℝ → ℕ → Response) (mp : ℕ) (tiles : List (ℝ × ℝ)) (r : ℝ),
      collect_places client mp tiles none (some r) =
        collect_places client mp tiles none none) ∧
    (∀ (client : ℝ × ℝ → ℕ → Response) (mp : ℕ) (tiles : List (ℝ × ℝ))
      (L : ℝ × ℝ → List RawPlace),
      (∀ t ∈ tiles, nearby_search_tile (client t) mp = Except.ok (L t)) →
      collect_places client mp tiles none none =
        Except.ok (greedyOf (Places.keepPlace none none) [] (tiles.flatMap L))) ∧
    (∀ (client : ℝ × ℝ → ℕ → Response) (mp : ℕ) (tiles : List (ℝ × ℝ)) (c : ℝ × ℝ)
      (out : List Place),
      collect_places client mp tiles (some c) none = Except.ok out →
      ∀ p ∈ out, p.distance_m = none ∧ p.distance_miles = none) ∧
    (∀ (client : ℝ × ℝ → ℕ → Response) (mp : ℕ) (tiles : List (ℝ × ℝ)) (r : ℝ)
      (out : List Place),
      collect_places client mp tiles none (some r) = Except.ok out →
      ∀ p ∈ out, p.distance_m = none ∧ p.distance_miles = none) := by
  refine ⟨?_, ?_, ?_, ?_, ?_⟩
  · intro client mp tiles c
    unfold collect_places
    rw [Places_keepPlace_center_only c]
  · intro client mp tiles r
    unfold collect_places
    rw [Places_keepPlace_radius_only r]
  · intro client mp tiles L hfetch
    unfold collect_places
    rw [collectTilesAux_ok_of_fetch _ _ L tiles ([], []) hfetch]
    rw [foldl_stepOf_eq]
    dsimp only
    rw [List.nil_append]
  · intro client mp tiles c out hok p hp
    obtain ⟨raw, hmem⟩ := collect_places_ok_stream hok
    obtain ⟨seen', p', hp', hk⟩ := greedyOf_mem_keep _ raw [] p (hmem p hp)
    obtain ⟨-, -, -, -, -, hdist⟩ := Places_keepPlace_inv hk
    rcases hdist with ⟨c', r', -, hr', -, -, -⟩ | ⟨-, hdm, hdmi⟩
    · cases hr'
    · exact ⟨hdm, hdmi⟩
  · intro client mp tiles r out hok p hp
    obtain ⟨raw, hmem⟩ := collect_places_ok_stream hok
    obtain ⟨seen', p', hp', hk⟩ := greedyOf_mem_keep _ raw [] p (hmem p hp)
    obtain ⟨-, -, -, -, -, hdist⟩ := Places_keepPlace_inv hk
    rcases hdist with ⟨c', r', hc', -, -, -, -⟩ | ⟨-, hdm, hdmi⟩
    · cases hc'
    · exact ⟨hdm, hdmi⟩

/-- Witness for C10 at concrete degenerate-filter runs. -/
theorem C10_partial_filter_args_ignored_witness :
    collect_places clientA 1 [((0 : ℝ), (0 : ℝ))] none none =
      Except.ok (greedyOf (Places.keepPlace none none) []
        ([((0 : ℝ), (0 : ℝ))].flatMap (fun _ => [rawA]))) ∧
    (collect_places clientA 1 [((0 : ℝ), (0 : ℝ))] (some ((0 : ℝ), (0 : ℝ))) none =
        Except.ok [pA0] ∧
      ∀ p ∈ [pA0], p.distance_m = none ∧ p.distance_miles = none) ∧
    (collect_places clientA 1 [((0 : ℝ), (0 : ℝ))] none (some 1) =
        Except.ok [pA0] ∧
      ∀ p ∈ [pA0], p.distance_m = none ∧ p.distance_miles = none) :=
  ⟨C10_partial_filter_args_ignored.2.2.1 clientA 1 [((0 : ℝ), (0 : ℝ))]
      (fun _ => [rawA]) (fun t _ => nearby_clientA_eval t),
    ⟨collect_places_A_center_only_eval,
      C10_partial_filter_args_ignored.2.2.2.1 clientA 1 [((0 : ℝ), (0 : ℝ))]
        ((0 : ℝ), (0 : ℝ)) [pA0] collect_places_A_center_only_eval⟩,
    ⟨collect_places_A_radius_only_eval,
      C10_partial_filter_args_ignored.2.2.2.2 clientA 1 [((0 : ℝ), (0 : ℝ))]
        1 [pA0] collect_places_A_radius_only_eval⟩⟩

end

end LIRA
